import Mathlib

/-!
Verification development for the libosmium storage substrate:
the packed tag-record format and its scan-based iteration
(include/osmium/osm/tag.hpp), the typed memory-map helper
(include/osmium/detail/typed_mmap.hpp), and the OGR problem
reporter (include/osmium/area/problem_reporter_ogr.hpp).

Buffers are modelled as lists of byte values (Nat, with 0 the null
terminator).  A pointer into a buffer is modelled as the suffix of the
buffer starting at that pointer, so pointer arithmetic such as
strchr(p, 0) + 1 becomes a suffix-returning function and a pointer
difference becomes a difference of suffix lengths.
-/

/-- Model of Tag::after_null: strchr(ptr, 0) + 1, the suffix of the
buffer starting one past the first null byte.  A buffer with no null
byte maps to the empty suffix (in C this case is undefined behaviour
and never arises for well-formed records). -/
def after_null (l : List Nat) : List Nat :=
  (l.dropWhile (fun b => b != 0)).drop 1

/-- Model of Tag::key: the bytes from the start of the record up to
(not including) the first null byte. -/
def tagKey (l : List Nat) : List Nat :=
  l.takeWhile (fun b => b != 0)

/-- Model of Tag::value: the bytes between the first and the second
null byte (after_null(data()) read up to its terminating null). -/
def tagValue (l : List Nat) : List Nat :=
  tagKey (after_null l)

/-- Model of Tag::next: after_null(after_null(data())), the suffix of
the buffer starting at the following record. -/
def tagNext (l : List Nat) : List Nat :=
  after_null (after_null l)

/-- The scanned size of the record at the head of the buffer: the
pointer difference next() - data(), expressed on suffixes as a
difference of lengths. -/
def tagSize (l : List Nat) : Nat :=
  l.length - (tagNext l).length

/-- Encoding of one key/value pair as two consecutive null-terminated
byte strings, exactly as a tag record is laid out in a buffer. -/
def encodeTag (k v : List Nat) : List Nat :=
  k ++ 0 :: (v ++ [0])

/-- Encoding of a whole tag sequence: the records laid out
back-to-back with no gaps, in write order. -/
def encodeTagList (ps : List (List Nat × List Nat)) : List Nat :=
  (ps.map (fun p => encodeTag p.1 p.2)).flatten

/-- A list of key/value pairs with no embedded null byte in any key
or value. -/
def wellFormedPairs (ps : List (List Nat × List Nat)) : Prop :=
  ∀ p ∈ ps, (∀ x ∈ p.1, x ≠ 0) ∧ (∀ x ∈ p.2, x ≠ 0)

instance : DecidablePred wellFormedPairs := fun ps => by
  unfold wellFormedPairs
  infer_instance

/-- Model of CollectionIterator traversal over a tag sequence: start
at the first record, decode it, step to tagNext, and stop when the
end boundary is reached (the suffix is empty). -/
def iterTags (l : List Nat) : List (List Nat × List Nat) :=
  if h : l = [] then []
  else (tagKey l, tagValue l) :: iterTags (tagNext l)
termination_by l.length
decreasing_by
  have hle : ∀ x : List Nat, (after_null x).length ≤ x.length := by
    intro x
    have h1 := (List.dropWhile_sublist (fun b => b != 0) (l := x)).length_le
    simp only [after_null, List.length_drop]
    omega
  have hlt : (tagNext l).length < l.length := by
    cases l with
    | nil => exact absurd rfl h
    | cons a t =>
      have h2 : (after_null (a :: t)).length ≤ t.length := by
        rw [after_null, List.dropWhile_cons]
        by_cases ha : a = 0
        · subst ha
          simp
        · have ha2 : (a != 0) = true := by simpa using ha
          rw [if_pos ha2]
          have h3 := (List.dropWhile_sublist (fun b => b != 0) (l := t)).length_le
          simp only [List.length_drop]
          omega
      calc (tagNext (a :: t)).length ≤ (after_null (a :: t)).length := hle _
        _ ≤ t.length := h2
        _ < (a :: t).length := by simp
  exact hlt

/-- Model of TagList::get_value_by_key: std::find_if over the
collection iteration, comparing keys with strcmp (byte equality for
null-free keys), returning the value of the first match or a null
pointer (none). -/
def get_value_by_key (buf : List Nat) (q : List Nat) : Option (List Nat) :=
  ((iterTags buf).find? (fun t => t.1 == q)).map Prod.snd

/-- Error taxonomy of the mapped-region primitive: MappingError models
std::system_error thrown after a failed system call, SizeMismatchError
models the std::length_error thrown by typed_mmap::file_size when the
file length is not a multiple of the element size. -/
inductive MmapError
  | MappingError
  | SizeMismatchError
deriving DecidableEq

/-- State of the backing file as the typed_mmap functions observe it:
whether fstat succeeds on its descriptor, and its byte length. -/
structure FileState where
  statable : Bool
  len : Nat
deriving DecidableEq

/-- Model of typed_mmap of T with file_size as its name in the source:
fstat the descriptor (MappingError on failure), reject byte lengths
that are not a multiple of sizeof T (SizeMismatchError), otherwise
return the element count st_size / sizeof T.  The parameter s is
sizeof T. -/
def file_size (s : Nat) (f : FileState) : Except MmapError Nat :=
  if f.statable = false then Except.error MmapError.MappingError
  else if f.len % s ≠ 0 then Except.error MmapError.SizeMismatchError
  else Except.ok (f.len / s)

/-- Result of typed_mmap of T grow_file: the error thrown, if any, and
the file state afterwards (a thrown exception leaves the file as it
was, since ftruncate has not run yet). -/
structure GrowResult where
  err : Option MmapError
  file : FileState
deriving DecidableEq

/-- Model of typed_mmap of T grow_file(new_size, fd): query the current
element count via file_size and, only when it is below new_size, resize
the file with ftruncate to exactly sizeof T * new_size bytes. -/
def grow_file (s : Nat) (new_size : Nat) (f : FileState) : GrowResult :=
  match file_size s f with
  | Except.error e => ⟨some e, f⟩
  | Except.ok count =>
    if count < new_size then ⟨none, ⟨f.statable, s * new_size⟩⟩ else ⟨none, f⟩

/-- Rounding a byte count up to the next multiple of the alignment
boundary, as the buffer layout does for sequence lengths. -/
def align_up (n a : Nat) : Nat :=
  ((n + a - 1) / a) * a

/-- Modelled from the spec: the fixed alignment boundary align_bytes
(declared in osmium/memory, which is not under src/); the spec calls
it a power-of-two byte count, e.g. 8. -/
def align_bytes : Nat := 8

/-- Modelled from the spec: sizeof(TagList).  TagList derives from
Collection and Item in osmium/memory (not under src/); the header
stores a 4-byte total size and a 1-byte kind tag and is padded so it
ends on an aligned offset, as the spec requires of the sequence
header. -/
def sizeof_TagList : Nat :=
  align_up (4 + 1) align_bytes

/-- A geographic location as the problem reporter passes it through
(the exact coordinate representation is irrelevant here). -/
structure Location where
  lon : Int
  lat : Int
deriving DecidableEq

/-- A NodeRef as consumed by the reporter: a node id and a location. -/
structure NodeRef where
  ref : Int
  location : Location
deriving DecidableEq

/-- A Way as consumed by the reporter: its 64-bit object id and its
node list. -/
structure Way where
  id : Int
  nodes : List NodeRef
deriving DecidableEq

/-- Model of osmium::geometry_error. -/
structure GeometryError where
  msg : String
deriving DecidableEq

/-- OGR field types used by the reporter layers. -/
inductive FieldType
  | OFTString
  | OFTInteger
  | OFTReal
deriving DecidableEq

/-- One add_field call: field name, type, width and optional
precision. -/
structure FieldDef where
  fname : String
  ftype : FieldType
  width : Nat
  prec : Option Nat
deriving DecidableEq

/-- OGR geometry kind of a layer. -/
inductive GeomKind
  | wkbPoint
  | wkbLineString
deriving DecidableEq

/-- One layer created in the ProblemReporterOGR constructor. -/
structure LayerDef where
  lname : String
  geom : GeomKind
  fields : List FieldDef
deriving DecidableEq

/-- The perrors layer schema, transcribed from the constructor. -/
def perrors_layer : LayerDef :=
  ⟨"perrors", GeomKind.wkbPoint,
    [⟨"obj_type", FieldType.OFTString, 1, none⟩,
     ⟨"obj_id", FieldType.OFTInteger, 10, none⟩,
     ⟨"nodes", FieldType.OFTInteger, 8, none⟩,
     ⟨"id1", FieldType.OFTReal, 12, some 1⟩,
     ⟨"id2", FieldType.OFTReal, 12, some 1⟩,
     ⟨"problem", FieldType.OFTString, 30, none⟩]⟩

/-- The lerrors layer schema, transcribed from the constructor. -/
def lerrors_layer : LayerDef :=
  ⟨"lerrors", GeomKind.wkbLineString,
    [⟨"obj_type", FieldType.OFTString, 1, none⟩,
     ⟨"obj_id", FieldType.OFTInteger, 10, none⟩,
     ⟨"nodes", FieldType.OFTInteger, 8, none⟩,
     ⟨"id1", FieldType.OFTReal, 12, some 1⟩,
     ⟨"id2", FieldType.OFTReal, 12, some 1⟩,
     ⟨"problem", FieldType.OFTString, 30, none⟩]⟩

/-- The ways layer schema, transcribed from the constructor. -/
def ways_layer : LayerDef :=
  ⟨"ways", GeomKind.wkbLineString,
    [⟨"obj_type", FieldType.OFTString, 1, none⟩,
     ⟨"obj_id", FieldType.OFTInteger, 10, none⟩,
     ⟨"way_id", FieldType.OFTInteger, 10, none⟩,
     ⟨"nodes", FieldType.OFTInteger, 8, none⟩]⟩

/-- The three layers the ProblemReporterOGR constructor creates, in
order. -/
def ogr_layers : List LayerDef :=
  [perrors_layer, lerrors_layer, ways_layer]

/-- The int32_t(x) narrowing conversion applied by the reporter to
64-bit object ids: two complement wrap into the 32-bit range, the
behaviour of the compilers this code targets. -/
def int32_of (x : Int) : Int :=
  (x + 2 ^ 31) % 2 ^ 32 - 2 ^ 31

/-- Exponent of the binade of n relative to 53 significand bits: the
number of low bits an IEEE double discards when n is converted to it.
Written as an explicit table over the binades of the 64-bit id range
(object ids are 64-bit integers, so their magnitude is below 2^64). -/
def sig53exp (n : Nat) : Nat :=
  if n < 2 ^ 53 then 0
  else if n < 2 ^ 54 then 1
  else if n < 2 ^ 55 then 2
  else if n < 2 ^ 56 then 3
  else if n < 2 ^ 57 then 4
  else if n < 2 ^ 58 then 5
  else if n < 2 ^ 59 then 6
  else if n < 2 ^ 60 then 7
  else if n < 2 ^ 61 then 8
  else if n < 2 ^ 62 then 9
  else if n < 2 ^ 63 then 10
  else 11

/-- Rounding of a nonnegative integer below 2^64 to 53 bits of
significand, round half to even: the value an IEEE double takes when
a large integer id is converted to it. -/
def roundSig53 (n : Nat) : Nat :=
  let e := sig53exp n
  if e = 0 then n
  else
    let q := n / 2 ^ e
    let r := n % 2 ^ e
    let half := 2 ^ (e - 1)
    if half < r ∨ (r = half ∧ q % 2 = 1) then (q + 1) * 2 ^ e else q * 2 ^ e

/-- The double(x) conversion applied by the reporter to the related
ids stored in the id1 and id2 fields of point and line problem
features. -/
def roundDouble (x : Int) : Int :=
  if 0 ≤ x then ((roundSig53 x.toNat : Nat) : Int)
  else -((roundSig53 (-x).toNat : Nat) : Int)

/-- Value stored into an OGR field by one set_field call.  An int
value records what the source passes after its explicit int32_t
narrowing; a real value records the exact integer value of the
double the source passes. -/
inductive FieldValue
  | str (s : String)
  | int (i : Int)
  | real (r : Int)
deriving DecidableEq

/-- Geometry attached to a feature. -/
inductive Geometry
  | point (loc : Location)
  | linestring (pts : List Location)
deriving DecidableEq

/-- One feature written to a layer: the layer name, its geometry and
the fields in set_field order. -/
structure Feature where
  layer : String
  geom : Geometry
  fields : List (String × FieldValue)
deriving DecidableEq

/-- Model of ProblemReporterOGR::set_object: the three fields set
from the reporter state (object type character as a one-character
string, object id and node count narrowed with int32_t). -/
def set_object_fields (otype : String) (oid nnodes : Int) : List (String × FieldValue) :=
  [⟨"obj_type", FieldValue.str otype⟩,
   ⟨"obj_id", FieldValue.int (int32_of oid)⟩,
   ⟨"nodes", FieldValue.int (int32_of nnodes)⟩]

/-- Model of ProblemReporterOGR::write_point: one feature on the
perrors layer with a point geometry; id1 and id2 are stored as
doubles. -/
def write_point (otype : String) (oid nnodes : Int) (problem_type : String)
    (i1 i2 : Int) (location : Location) : Feature :=
  ⟨"perrors", Geometry.point location,
    set_object_fields otype oid nnodes ++
      [⟨"id1", FieldValue.real (roundDouble i1)⟩,
       ⟨"id2", FieldValue.real (roundDouble i2)⟩,
       ⟨"problem", FieldValue.str problem_type⟩]⟩

/-- Model of ProblemReporterOGR::write_line: one feature on the
lerrors layer with a two-point linestring; id1 and id2 are stored as
doubles. -/
def write_line (otype : String) (oid nnodes : Int) (problem_type : String)
    (i1 i2 : Int) (loc1 loc2 : Location) : Feature :=
  ⟨"lerrors", Geometry.linestring [loc1, loc2],
    set_object_fields otype oid nnodes ++
      [⟨"id1", FieldValue.real (roundDouble i1)⟩,
       ⟨"id2", FieldValue.real (roundDouble i2)⟩,
       ⟨"problem", FieldValue.str problem_type⟩]⟩

/-- Model of ProblemReporterOGR::report_way.  The linestring factory
is a parameter (create); the catch of osmium::geometry_error around
the feature construction is modelled by the error branch returning
no feature and the function returning normally. -/
def report_way (create : Way → Except GeometryError (List Location))
    (otype : String) (oid nnodes : Int) (w : Way) : List Feature :=
  match w.nodes with
  | [] => []
  | [nr] => [write_point otype oid nnodes "single_node_in_way" w.id nr.ref nr.location]
  | _ :: _ :: _ =>
    match create w with
    | Except.error _ => []
    | Except.ok pts =>
      [⟨"ways", Geometry.linestring pts,
        set_object_fields otype oid nnodes ++
          [⟨"way_id", FieldValue.int (int32_of w.id)⟩]⟩]

/-- Model of the common body of report_duplicate_way,
report_way_in_multiple_rings and report_inner_with_same_tags: skip
ways of fewer than two nodes, build the linestring inside a try block
whose catch discards the feature, and set id1 to int32_t(way.id()),
id2 to 0 and the problem label. -/
def report_lerror_way (create : Way → Except GeometryError (List Location))
    (otype : String) (oid nnodes : Int) (problem_type : String) (w : Way) : List Feature :=
  match w.nodes with
  | [] => []
  | [_] => []
  | _ :: _ :: _ =>
    match create w with
    | Except.error _ => []
    | Except.ok pts =>
      [⟨"lerrors", Geometry.linestring pts,
        set_object_fields otype oid nnodes ++
          [⟨"id1", FieldValue.int (int32_of w.id)⟩,
           ⟨"id2", FieldValue.int 0⟩,
           ⟨"problem", FieldValue.str problem_type⟩]⟩]

/-- Model of ProblemReporterOGR::report_duplicate_way. -/
def report_duplicate_way (create : Way → Except GeometryError (List Location))
    (otype : String) (oid nnodes : Int) (w : Way) : List Feature :=
  report_lerror_way create otype oid nnodes "duplicate_way" w

/-- Model of ProblemReporterOGR::report_way_in_multiple_rings. -/
def report_way_in_multiple_rings (create : Way → Except GeometryError (List Location))
    (otype : String) (oid nnodes : Int) (w : Way) : List Feature :=
  report_lerror_way create otype oid nnodes "way_in_multiple_rings" w

/-- Model of ProblemReporterOGR::report_inner_with_same_tags. -/
def report_inner_with_same_tags (create : Way → Except GeometryError (List Location))
    (otype : String) (oid nnodes : Int) (w : Way) : List Feature :=
  report_lerror_way create otype oid nnodes "inner_with_same_tags" w

/-- Processing a whole batch of ways through report_way: the features
written for each way in order. -/
def report_ways_all (create : Way → Except GeometryError (List Location))
    (otype : String) (oid nnodes : Int) (ws : List Way) : List Feature :=
  (ws.map (report_way create otype oid nnodes)).flatten

theorem takeWhile_nullfree_append (k t : List Nat) (hk : ∀ x ∈ k, x ≠ 0) :
    (k ++ 0 :: t).takeWhile (fun b => b != 0) = k := by
  induction k with
  | nil => simp [List.takeWhile]
  | cons a l ih =>
    have ha : a ≠ 0 := hk a (List.mem_cons_self a l)
    have ha2 : (a != 0) = true := by simpa using ha
    simp only [List.cons_append, List.takeWhile_cons, ha2, if_true, List.cons.injEq, true_and]
    exact ih (fun x hx => hk x (List.mem_cons_of_mem a hx))

theorem dropWhile_nullfree_append (k t : List Nat) (hk : ∀ x ∈ k, x ≠ 0) :
    (k ++ 0 :: t).dropWhile (fun b => b != 0) = 0 :: t := by
  induction k with
  | nil => simp [List.dropWhile]
  | cons a l ih =>
    have ha : a ≠ 0 := hk a (List.mem_cons_self a l)
    have ha2 : (a != 0) = true := by simpa using ha
    simp only [List.cons_append, List.dropWhile_cons, ha2, if_true]
    exact ih (fun x hx => hk x (List.mem_cons_of_mem a hx))

theorem after_null_nullfree (k t : List Nat) (hk : ∀ x ∈ k, x ≠ 0) :
    after_null (k ++ 0 :: t) = t := by
  simp [after_null, dropWhile_nullfree_append k t hk]

theorem tagKey_encode (k v rest : List Nat) (hk : ∀ x ∈ k, x ≠ 0) :
    tagKey (encodeTag k v ++ rest) = k := by
  have h : encodeTag k v ++ rest = k ++ 0 :: (v ++ 0 :: rest) := by
    simp [encodeTag]
  rw [h]
  exact takeWhile_nullfree_append k _ hk

theorem after_null_encode (k v rest : List Nat) (hk : ∀ x ∈ k, x ≠ 0) :
    after_null (encodeTag k v ++ rest) = v ++ 0 :: rest := by
  have h : encodeTag k v ++ rest = k ++ 0 :: (v ++ 0 :: rest) := by
    simp [encodeTag]
  rw [h]
  exact after_null_nullfree k _ hk

theorem tagValue_encode (k v rest : List Nat) (hk : ∀ x ∈ k, x ≠ 0)
    (hv : ∀ x ∈ v, x ≠ 0) :
    tagValue (encodeTag k v ++ rest) = v := by
  rw [tagValue, after_null_encode k v rest hk, tagKey]
  exact takeWhile_nullfree_append v rest hv

theorem tagNext_encode (k v rest : List Nat) (hk : ∀ x ∈ k, x ≠ 0)
    (hv : ∀ x ∈ v, x ≠ 0) :
    tagNext (encodeTag k v ++ rest) = rest := by
  rw [tagNext, after_null_encode k v rest hk]
  exact after_null_nullfree v rest hv

theorem tagSize_encode (k v rest : List Nat) (hk : ∀ x ∈ k, x ≠ 0)
    (hv : ∀ x ∈ v, x ≠ 0) :
    tagSize (encodeTag k v ++ rest) = k.length + 1 + v.length + 1 := by
  rw [tagSize, tagNext_encode k v rest hk hv]
  simp [encodeTag]
  omega

theorem encodeTag_append_ne_nil (k v rest : List Nat) :
    encodeTag k v ++ rest ≠ [] := by
  simp [encodeTag]

theorem iterTags_nil : iterTags [] = [] := by
  rw [iterTags]
  simp

theorem iterTags_cons (l : List Nat) (h : l ≠ []) :
    iterTags l = (tagKey l, tagValue l) :: iterTags (tagNext l) := by
  rw [iterTags]
  simp [h]

theorem iterTags_encodeTagList (ps : List (List Nat × List Nat))
    (h : wellFormedPairs ps) :
    iterTags (encodeTagList ps) = ps := by
  induction ps with
  | nil => simpa [encodeTagList] using iterTags_nil
  | cons p t ih =>
    have hp := h p (List.mem_cons_self p t)
    have ht : wellFormedPairs t := fun q hq => h q (List.mem_cons_of_mem p hq)
    have hflat : encodeTagList (p :: t) = encodeTag p.1 p.2 ++ encodeTagList t := by
      simp [encodeTagList]
    rw [hflat, iterTags_cons _ (encodeTag_append_ne_nil p.1 p.2 _),
      tagKey_encode p.1 p.2 _ hp.1, tagValue_encode p.1 p.2 _ hp.1 hp.2,
      tagNext_encode p.1 p.2 _ hp.1 hp.2, ih ht]

/-- C1: for every key/value pair whose key and value contain no
embedded null byte, encoding the pair as two consecutive
null-terminated byte strings and decoding it via the scan rule
(Tag::key up to the first null, Tag::value between the first and
second null) returns the original key and value bytes exactly, and
the discovered record size is len(key) + 1 + len(value) + 1. -/
theorem tag_encode_decode_roundtrip (k v : List Nat)
    (hk : ∀ x ∈ k, x ≠ 0) (hv : ∀ x ∈ v, x ≠ 0) :
    tagKey (encodeTag k v) = k ∧ tagValue (encodeTag k v) = v ∧
    tagSize (encodeTag k v) = k.length + 1 + v.length + 1 := by
  have h1 := tagKey_encode k v [] hk
  have h2 := tagValue_encode k v [] hk hv
  have h3 := tagSize_encode k v [] hk hv
  rw [List.append_nil] at h1 h2 h3
  exact ⟨h1, h2, h3⟩

/-- Witness for C1 at a concrete pair. -/
theorem tag_encode_decode_roundtrip_witness :
    tagKey (encodeTag [110, 97] [77, 83]) = [110, 97] ∧
    tagValue (encodeTag [110, 97] [77, 83]) = [77, 83] ∧
    tagSize (encodeTag [110, 97] [77, 83]) = 2 + 1 + 2 + 1 :=
  tag_encode_decode_roundtrip [110, 97] [77, 83] (by decide) (by decide)

/-- C2: for a well-formed record sequence, the following record
starts at the current start plus the current scanned size (one past
the second null), iteration steps exactly when the suffix is not yet
the end boundary and stops at the boundary, and iterating a sequence
of k records from the start visits them in write order in exactly k
steps. -/
theorem tag_iteration_correct (ps : List (List Nat × List Nat))
    (h : wellFormedPairs ps) :
    iterTags (encodeTagList ps) = ps ∧
    (iterTags (encodeTagList ps)).length = ps.length ∧
    (∀ k v rest, (∀ x ∈ k, x ≠ 0) → (∀ x ∈ v, x ≠ 0) →
      tagNext (encodeTag k v ++ rest) =
        (encodeTag k v ++ rest).drop (tagSize (encodeTag k v ++ rest))) ∧
    (∀ buf : List Nat, buf ≠ [] →
      iterTags buf = (tagKey buf, tagValue buf) :: iterTags (tagNext buf)) ∧
    iterTags [] = [] := by
  have hmain := iterTags_encodeTagList ps h
  refine ⟨hmain, by rw [hmain], ?_, iterTags_cons, iterTags_nil⟩
  intro k v rest hk hv
  rw [tagSize_encode k v rest hk hv, tagNext_encode k v rest hk hv]
  have hlen : k.length + 1 + v.length + 1 = (encodeTag k v).length := by
    simp [encodeTag]
    omega
  rw [hlen, List.drop_left]

/-- Witness for C2 at a concrete two-record sequence. -/
theorem tag_iteration_correct_witness :
    iterTags (encodeTagList [([1], [2]), ([3], [4])]) = [([1], [2]), ([3], [4])] :=
  (tag_iteration_correct [([1], [2]), ([3], [4])] (by decide)).1

/-- C3: get_value_by_key scans the iteration linearly and returns the
value of the first record whose key equals the query byte-for-byte;
it returns the not-found indication on an empty sequence and when no
record matches, and with duplicate keys the first record in write
order wins. -/
theorem get_value_by_key_correct (ps : List (List Nat × List Nat))
    (q : List Nat) (h : wellFormedPairs ps) :
    get_value_by_key (encodeTagList ps) q =
      (ps.find? (fun p => p.1 == q)).map Prod.snd ∧
    get_value_by_key (encodeTagList []) q = none ∧
    ((∀ p ∈ ps, p.1 ≠ q) → get_value_by_key (encodeTagList ps) q = none) := by
  have h1 : get_value_by_key (encodeTagList ps) q =
      (ps.find? (fun p => p.1 == q)).map Prod.snd := by
    rw [get_value_by_key, iterTags_encodeTagList ps h]
  refine ⟨h1, ?_, ?_⟩
  · rw [get_value_by_key]
    simp [encodeTagList, iterTags_nil]
  · intro hnone
    rw [h1]
    have h2 : ps.find? (fun p => p.1 == q) = none := by
      rw [List.find?_eq_none]
      intro p hp
      simpa using hnone p hp
    rw [h2]
    rfl

/-- Witness for C3: duplicate keys resolve to the first record in
write order. -/
theorem get_value_by_key_correct_witness :
    get_value_by_key (encodeTagList [([1], [2]), ([1], [3]), ([4], [5])]) [1] =
      some [2] := by
  rw [(get_value_by_key_correct [([1], [2]), ([1], [3]), ([4], [5])] [1] (by decide)).1]
  rfl

/-- C5: file_element_count (file_size in the source) returns the byte
length divided by sizeof(T) exactly when the length is a multiple of
sizeof(T); it fails with MappingError exactly when the file cannot be
stat-ed and with the distinct SizeMismatchError exactly when the stat
succeeds but the length is not a multiple; a successful count is
never truncated: the byte length is exactly sizeof(T) times the
count. -/
theorem file_size_correct (s : Nat) (f : FileState) :
    (f.statable = true → f.len % s = 0 → file_size s f = Except.ok (f.len / s)) ∧
    (f.statable = false → file_size s f = Except.error MmapError.MappingError) ∧
    (f.statable = true → f.len % s ≠ 0 →
      file_size s f = Except.error MmapError.SizeMismatchError) ∧
    MmapError.MappingError ≠ MmapError.SizeMismatchError ∧
    (∀ c, file_size s f = Except.ok c → f.len = s * c) := by
  refine ⟨?_, ?_, ?_, by decide, ?_⟩
  · intro hs hm
    simp [file_size, hs, hm]
  · intro hs
    simp [file_size, hs]
  · intro hs hm
    simp [file_size, hs, hm]
  · intro c hc
    by_cases hs : f.statable = false
    · simp [file_size, hs] at hc
    · by_cases hm : f.len % s ≠ 0
      · simp [file_size, hs, hm] at hc
      · simp [file_size, hs, hm] at hc
        have hdvd : s ∣ f.len := Nat.dvd_of_mod_eq_zero (by omega)
        have h2 := Nat.div_mul_cancel hdvd
        rw [← hc]
        rw [Nat.mul_comm]
        exact h2.symm

/-- Witness for C5 at a concrete well-formed file. -/
theorem file_size_correct_witness :
    file_size 4 ⟨true, 8⟩ = Except.ok 2 :=
  (file_size_correct 4 ⟨true, 8⟩).1 rfl (by decide)

/-- C9: grow_file consults file_size before deciding whether to
extend, so on a file whose length is not a multiple of sizeof(T) it
fails with SizeMismatchError, and on a file that cannot be stat-ed it
fails with MappingError, in both cases leaving the file unchanged. -/
theorem grow_file_error_before_resize (s n : Nat) (f : FileState) :
    (f.statable = false → grow_file s n f = ⟨some MmapError.MappingError, f⟩) ∧
    (f.statable = true → f.len % s ≠ 0 →
      grow_file s n f = ⟨some MmapError.SizeMismatchError, f⟩) := by
  constructor
  · intro hs
    simp [grow_file, file_size, hs]
  · intro hs hm
    simp [grow_file, file_size, hs, hm]

/-- Witness for C9 at a concrete corrupt file: 4-byte elements, a
7-byte statable file. -/
theorem grow_file_error_before_resize_witness :
    grow_file 4 9 ⟨true, 7⟩ = ⟨some MmapError.SizeMismatchError, ⟨true, 7⟩⟩ :=
  (grow_file_error_before_resize 4 9 ⟨true, 7⟩).2 rfl (by decide)

/-- C4 counterexample: the composite clause of the claim fails as
stated when the file already holds more than n elements.  With
sizeof(T) = 4 and a 12-byte file (3 elements), grow_file(2, fd)
followed by grow_file(1, fd) leaves the file at 12 bytes, not at
2 * 4 = 8 bytes. -/
theorem grow_file_twice_counterexample :
    ¬ ((grow_file 4 1 (grow_file 4 2 ⟨true, 12⟩).file).file.len = 4 * 2) := by
  decide

/-- C4 amended: grow_file extends the file to exactly n * sizeof(T)
bytes when it holds fewer than n elements, leaves it unchanged when
it already holds at least n elements, and never shrinks it; and
grow_file(n, fd) followed by grow_file(m, fd) with m < n leaves the
file at exactly n * sizeof(T) bytes provided the file initially holds
at most n elements. -/
theorem grow_file_correct (s n m : Nat) (f : FileState) (hsz : 0 < s)
    (hstat : f.statable = true) (hmul : f.len % s = 0) :
    (f.len / s < n → grow_file s n f = ⟨none, ⟨true, s * n⟩⟩) ∧
    (n ≤ f.len / s → grow_file s n f = ⟨none, f⟩) ∧
    f.len ≤ (grow_file s n f).file.len ∧
    (m < n → f.len / s ≤ n →
      (grow_file s m (grow_file s n f).file).file.len = s * n) := by
  have hdvd : s ∣ f.len := Nat.dvd_of_mod_eq_zero hmul
  have hlen : f.len / s * s = f.len := Nat.div_mul_cancel hdvd
  have h1 : f.len / s < n → grow_file s n f = ⟨none, ⟨true, s * n⟩⟩ := by
    intro hlt
    simp [grow_file, file_size, hstat, hmul, hlt]
  have h2 : n ≤ f.len / s → grow_file s n f = ⟨none, f⟩ := by
    intro hge
    have hnlt : ¬ (f.len / s < n) := Nat.not_lt.mpr hge
    simp [grow_file, file_size, hstat, hmul, hnlt]
  refine ⟨h1, h2, ?_, ?_⟩
  · by_cases hlt : f.len / s < n
    · rw [h1 hlt]
      have hle2 : f.len / s * s ≤ n * s := Nat.mul_le_mul_right s (Nat.le_of_lt hlt)
      calc f.len = f.len / s * s := hlen.symm
        _ ≤ n * s := hle2
        _ = s * n := Nat.mul_comm n s
    · rw [h2 (Nat.not_lt.mp hlt)]
  · intro hm hle
    by_cases hlt : f.len / s < n
    · rw [h1 hlt]
      have hcnt : (s * n) % s = 0 := Nat.mul_mod_right s n
      have hdiv : s * n / s = n := Nat.mul_div_cancel_left n hsz
      have hnm : ¬ (s * n / s < m) := by
        rw [hdiv]
        omega
      simp [grow_file, file_size, hcnt, hnm]
    · have hEq : f.len / s = n := Nat.le_antisymm hle (Nat.not_lt.mp hlt)
      rw [h2 (Nat.not_lt.mp hlt)]
      have hnm : ¬ (f.len / s < m) := by omega
      simp [grow_file, file_size, hstat, hmul, hnm]
      calc f.len = f.len / s * s := hlen.symm
        _ = n * s := by rw [hEq]
        _ = s * n := Nat.mul_comm n s

/-- Witness for the amended C4: 4-byte elements, an 8-byte file grown
to 3 elements and then asked to grow to 1 element stays at 12
bytes. -/
theorem grow_file_correct_witness :
    (grow_file 4 1 (grow_file 4 3 ⟨true, 8⟩).file).file.len = 4 * 3 :=
  (grow_file_correct 4 3 1 ⟨true, 8⟩ (by decide) rfl (by decide)).2.2.2
    (by decide) (by decide)

/-- C6: the size of the record-sequence header type (TagList) is an
exact multiple of the alignment boundary, so the first record of a
sequence starts at an aligned offset; the padding rule yields an
aligned size for any header payload. -/
theorem taglist_header_aligned :
    sizeof_TagList % align_bytes = 0 ∧
    (∀ x : Nat, align_up x align_bytes % align_bytes = 0) :=
  ⟨by decide, fun x => Nat.mul_mod_left _ _⟩

/-- C7 counterexample: not every one of the three layers carries a
problem label; the ways layer has no problem field. -/
theorem ogr_layers_counterexample :
    ¬ ∀ l ∈ ogr_layers, "problem" ∈ l.fields.map FieldDef.fname := by
  decide

/-- C7 amended: the constructor defines exactly three layers, named
perrors (point geometry), lerrors and ways (line geometry); every
layer carries the object type (a one-character string field), the
object id and the node count; the two problem layers additionally
carry two related ids (id1, id2) and a problem label, while the ways
layer instead carries a single related way id and no problem
label. -/
theorem ogr_layer_schema :
    ogr_layers.map LayerDef.lname = ["perrors", "lerrors", "ways"] ∧
    perrors_layer.geom = GeomKind.wkbPoint ∧
    lerrors_layer.geom = GeomKind.wkbLineString ∧
    ways_layer.geom = GeomKind.wkbLineString ∧
    perrors_layer.fields.map FieldDef.fname =
      ["obj_type", "obj_id", "nodes", "id1", "id2", "problem"] ∧
    lerrors_layer.fields = perrors_layer.fields ∧
    ways_layer.fields.map FieldDef.fname =
      ["obj_type", "obj_id", "way_id", "nodes"] ∧
    (∀ l ∈ ogr_layers, ∃ fd ∈ l.fields,
      fd.fname = "obj_type" ∧ fd.ftype = FieldType.OFTString ∧ fd.width = 1) ∧
    "problem" ∉ ways_layer.fields.map FieldDef.fname := by
  decide

/-- C8: for every way handed to a reporting operation that builds a
linestring geometry, a GeometryError raised by the geometry factory
is caught inside that operation alone: the operation returns normally
having written no feature, and a batch containing the failing way
still yields the features of every other way. -/
theorem geometry_error_caught
    (create : Way → Except GeometryError (List Location))
    (otype : String) (oid nnodes : Int) (w : Way) (e : GeometryError)
    (hfail : create w = Except.error e) :
    (2 ≤ w.nodes.length → report_way create otype oid nnodes w = []) ∧
    report_duplicate_way create otype oid nnodes w = [] ∧
    report_way_in_multiple_rings create otype oid nnodes w = [] ∧
    report_inner_with_same_tags create otype oid nnodes w = [] ∧
    (∀ ws1 ws2, 2 ≤ w.nodes.length →
      report_ways_all create otype oid nnodes (ws1 ++ w :: ws2) =
        report_ways_all create otype oid nnodes ws1 ++
          report_ways_all create otype oid nnodes ws2) := by
  obtain ⟨wid, nodes⟩ := w
  have hler : ∀ pt, report_lerror_way create otype oid nnodes pt ⟨wid, nodes⟩ = [] := by
    intro pt
    cases nodes with
    | nil => rfl
    | cons a t =>
      cases t with
      | nil => rfl
      | cons b t2 => simp [report_lerror_way, hfail]
  have hway : 2 ≤ (Way.mk wid nodes).nodes.length →
      report_way create otype oid nnodes ⟨wid, nodes⟩ = [] := by
    intro h2
    cases nodes with
    | nil => simp at h2
    | cons a t =>
      cases t with
      | nil => simp at h2
      | cons b t2 => simp [report_way, hfail]
  refine ⟨hway, hler _, hler _, hler _, ?_⟩
  intro ws1 ws2 h2
  have h0 := hway h2
  simp [report_ways_all, h0]

/-- Witness for C8: a two-node way whose linestring construction
fails is reported as no feature at all. -/
theorem geometry_error_caught_witness :
    report_way (fun _ => Except.error ⟨"degenerate"⟩) "w" 1 2
      ⟨7, [⟨1, ⟨0, 0⟩⟩, ⟨2, ⟨1, 1⟩⟩]⟩ = [] :=
  (geometry_error_caught (fun _ => Except.error ⟨"degenerate"⟩) "w" 1 2
    ⟨7, [⟨1, ⟨0, 0⟩⟩, ⟨2, ⟨1, 1⟩⟩]⟩ ⟨"degenerate"⟩ rfl).1 (by decide)

/-- C10: every feature stores the object id and node count through
the int32_t narrowing, way ids go through the same narrowing into the
way_id and id1 fields of way reports, and the related ids of point
and line problem features are converted to double; the narrowing is
the identity exactly on the 32-bit range, every id outside that range
is stored unfaithfully, integers up to 2 to the 53rd survive the
double conversion exactly, and 2 to the 53rd plus 1 does not. -/
theorem ogr_id_narrowing :
    (∀ otype oid nnodes pt i1 i2 loc,
      write_point otype oid nnodes pt i1 i2 loc =
        ⟨"perrors", Geometry.point loc,
          [⟨"obj_type", FieldValue.str otype⟩,
           ⟨"obj_id", FieldValue.int (int32_of oid)⟩,
           ⟨"nodes", FieldValue.int (int32_of nnodes)⟩,
           ⟨"id1", FieldValue.real (roundDouble i1)⟩,
           ⟨"id2", FieldValue.real (roundDouble i2)⟩,
           ⟨"problem", FieldValue.str pt⟩]⟩) ∧
    (∀ otype oid nnodes pt i1 i2 l1 l2,
      write_line otype oid nnodes pt i1 i2 l1 l2 =
        ⟨"lerrors", Geometry.linestring [l1, l2],
          [⟨"obj_type", FieldValue.str otype⟩,
           ⟨"obj_id", FieldValue.int (int32_of oid)⟩,
           ⟨"nodes", FieldValue.int (int32_of nnodes)⟩,
           ⟨"id1", FieldValue.real (roundDouble i1)⟩,
           ⟨"id2", FieldValue.real (roundDouble i2)⟩,
           ⟨"problem", FieldValue.str pt⟩]⟩) ∧
    (∀ create otype oid nnodes w pts, create w = Except.ok pts →
      2 ≤ w.nodes.length →
      report_way create otype oid nnodes w =
        [⟨"ways", Geometry.linestring pts,
          [⟨"obj_type", FieldValue.str otype⟩,
           ⟨"obj_id", FieldValue.int (int32_of oid)⟩,
           ⟨"nodes", FieldValue.int (int32_of nnodes)⟩,
           ⟨"way_id", FieldValue.int (int32_of w.id)⟩]⟩] ∧
      report_duplicate_way create otype oid nnodes w =
        [⟨"lerrors", Geometry.linestring pts,
          [⟨"obj_type", FieldValue.str otype⟩,
           ⟨"obj_id", FieldValue.int (int32_of oid)⟩,
           ⟨"nodes", FieldValue.int (int32_of nnodes)⟩,
           ⟨"id1", FieldValue.int (int32_of w.id)⟩,
           ⟨"id2", FieldValue.int 0⟩,
           ⟨"problem", FieldValue.str "duplicate_way"⟩]⟩]) ∧
    (∀ x : Int, -(2 ^ 31) ≤ x → x < 2 ^ 31 → int32_of x = x) ∧
    (∀ x : Int, x < -(2 ^ 31) ∨ 2 ^ 31 ≤ x → int32_of x ≠ x) ∧
    (∀ x : Int, x.natAbs < 2 ^ 53 → roundDouble x = x) ∧
    roundDouble (2 ^ 53 + 1) ≠ 2 ^ 53 + 1 := by
  refine ⟨?_, ?_, ?_, ?_, ?_, ?_, ?_⟩
  · intro otype oid nnodes pt i1 i2 loc
    rfl
  · intro otype oid nnodes pt i1 i2 l1 l2
    rfl
  · intro create otype oid nnodes w pts hok h2
    obtain ⟨wid, nodes⟩ := w
    cases nodes with
    | nil => simp at h2
    | cons a t =>
      cases t with
      | nil => simp at h2
      | cons b t2 =>
        constructor
        · simp [report_way, hok, set_object_fields]
        · simp [report_duplicate_way, report_lerror_way, hok, set_object_fields]
  · intro x h1 h2
    have h3 : (x + 2 ^ 31) % 2 ^ 32 = x + 2 ^ 31 :=
      Int.emod_eq_of_lt (by omega) (by omega)
    simp only [int32_of, h3]
    omega
  · intro x hx
    have h0 : 0 ≤ (x + 2 ^ 31) % 2 ^ 32 := Int.emod_nonneg _ (by norm_num)
    have h1 : (x + 2 ^ 31) % 2 ^ 32 < 2 ^ 32 := Int.emod_lt_of_pos _ (by norm_num)
    simp only [int32_of]
    omega
  · intro x hx
    by_cases h : 0 ≤ x
    · have ht : x.toNat < 2 ^ 53 := by omega
      simp [roundDouble, roundSig53, sig53exp, h, ht]
      omega
    · have ht : (-x).toNat < 2 ^ 53 := by omega
      simp [roundDouble, roundSig53, sig53exp, h, ht]
      omega
  · decide

/-- Witness for C10: the id 2 to the 31st does not fit in 32 bits and
is stored as a different value. -/
theorem ogr_id_narrowing_witness :
    int32_of (2 ^ 31) ≠ 2 ^ 31 :=
  ogr_id_narrowing.2.2.2.2.1 (2 ^ 31) (Or.inr (le_refl _))
